import Mathlib

/-!
Verification of the magnetic dip / declination processing script
(`冷湖实习磁倾角与磁偏角测量.py`) against its natural-language
specification.  The script's core, `calculate_magnetic_parameters`,
is embedded here as two stages over an in-memory table:

* an angle-derivation stage (source lines 34-45): coerce the five raw
  columns to numeric, then append the horizontal field magnitude
  `H_uT`, the dip angle `Dip_Angle_deg` and the declination
  `Declination_deg`;
* an adaptive smoothing stage (source lines 47-74): pick a
  Savitzky-Golay window length from the series length and either apply
  the filter to three target columns or copy them verbatim.

The table is modelled as pandas models it: an ordered association list
from column names to columns, where column assignment replaces an
existing column in place and appends a new one at the end.  Machine
floats are idealised as real numbers; a cell is a number, a missing
value (NaN), or unparsable text.
-/

namespace LenghuMagnetic

/-- One cell of the data table: a numeric value, a missing value
(pandas `NaN`), or textual content that fails numeric parsing.
Numeric strings that `pd.to_numeric` would parse successfully are
modelled as already being `num`; `text` models content for which
parsing fails. -/
inductive Cell where
  | num (x : ℝ)
  | nan
  | text (s : String)

/-- `pd.to_numeric(col, errors='coerce')` on one cell (source line 35):
numeric content is kept, anything unparsable is coerced to missing. -/
def toNumeric : Cell → Cell
  | Cell.num x => Cell.num x
  | Cell.nan => Cell.nan
  | Cell.text _ => Cell.nan

/-- `pd.to_numeric(col, errors='coerce')` over a whole column. -/
def toNumericCol (xs : List Cell) : List Cell := xs.map toNumeric

/-- A cell that is numeric or missing (the shapes `pd.to_numeric`
leaves unchanged). -/
def Cell.isNumeric : Cell → Bool
  | Cell.num _ => true
  | Cell.nan => true
  | Cell.text _ => false

/-- Is this cell the missing-value marker? -/
def cellIsNan : Cell → Bool
  | Cell.nan => true
  | _ => false

/-- Element-wise binary arithmetic as numpy/pandas performs it on
numeric columns: defined on numbers, missing otherwise (NaN
propagates through every arithmetic operation). -/
def cellOp2 (f : ℝ → ℝ → ℝ) : Cell → Cell → Cell
  | Cell.num a, Cell.num b => Cell.num (f a b)
  | _, _ => Cell.nan

/-- Column-wise lift of a binary numeric operation. -/
def zipWithCell (f : ℝ → ℝ → ℝ) (xs ys : List Cell) : List Cell :=
  List.zipWith (cellOp2 f) xs ys

/-- The pandas `DataFrame`, modelled as an ordered association list
from column names to columns. -/
abbrev DataFrame := List (String × List Cell)

/-- `df[c]`: look a column up by name. -/
def getCol : DataFrame → String → Option (List Cell)
  | [], _ => none
  | (c', v) :: rest, c => if c' = c then some v else getCol rest c

/-- `df[c] = v`: replace column `c` in place when present, otherwise
append it at the end (pandas column-assignment semantics). -/
def setCol : DataFrame → String → List Cell → DataFrame
  | [], c, v => [(c, v)]
  | (c', v') :: rest, c, v =>
      if c' = c then (c, v) :: rest else (c', v') :: setCol rest c v

/-- A column, defaulting to the empty column when absent. -/
def colOrNil (df : DataFrame) (c : String) : List Cell := (getCol df c).getD []

/-- `len(df)`: the number of rows, read off the first column. -/
def dfLen : DataFrame → Nat
  | [] => 0
  | (_, v) :: _ => v.length

/-- Every column of the table has length `m`. -/
def dfColsLen (df : DataFrame) (m : Nat) : Bool :=
  df.all (fun p => p.2.length == m)

/-- Every cell of the table is numeric or missing. -/
def dfAllNumeric (df : DataFrame) : Bool :=
  df.all (fun p => p.2.all Cell.isNumeric)

/-! ### Window selection (source lines 48-52)

`window_length = min(21, n // 4 if n // 4 % 2 == 1 else n // 4 + 1)`
followed by `window_length = max(5, window_length)`. -/

/-- The smoothing window the script selects for a series of length
`n` (source lines 51-52): `n // 4` forced odd, capped above at 21,
then raised to at least 5. -/
def windowLength (n : Nat) : Nat :=
  max 5 (min 21 (if n / 4 % 2 = 1 then n / 4 else n / 4 + 1))

/-- The window-selection policy as the claim words it: candidate
`n // 4` forced odd, raised to at least 5, with no upper cap. -/
def claimWindowNoCap (n : Nat) : Nat :=
  max 5 (if n / 4 % 2 = 1 then n / 4 else n / 4 + 1)

/-- The amended policy: candidate `n // 4` forced odd, capped above
at 21, raised to at least 5. -/
def amendedWindow (n : Nat) : Nat :=
  max (min (if n / 4 % 2 = 1 then n / 4 else n / 4 + 1) 21) 5

/-! ### Scalar trigonometry (source lines 38-45)

Machine floats are idealised as real numbers.  `np.arctan2` is the
standard two-argument arctangent; `np.degrees` and `np.radians` are
the linear unit conversions. -/

/-- `np.arctan2 y x`: the angle of the point `(x, y)` in `(-π, π]`,
with `arctan2 0 0 = 0` (signed zeros are outside the real-number
idealisation). -/
noncomputable def arctan2 (y x : ℝ) : ℝ :=
  if 0 < x then Real.arctan (y / x)
  else if x < 0 then
    if 0 ≤ y then Real.arctan (y / x) + Real.pi
    else Real.arctan (y / x) - Real.pi
  else if 0 < y then Real.pi / 2
  else if y < 0 then -(Real.pi / 2)
  else 0

/-- `np.degrees`: radians to degrees. -/
noncomputable def degrees (t : ℝ) : ℝ := t * (180 / Real.pi)

/-- `math.radians`: degrees to radians. -/
noncomputable def radians (d : ℝ) : ℝ := d * (Real.pi / 180)

/-- The two-argument Euclidean norm named by the spec (`hypot`). -/
noncomputable def hypot (x y : ℝ) : ℝ := Real.sqrt (x * x + y * y)

/-- Source line 38: `df['H_uT'] = np.sqrt(df['Bx_uT']**2 + df['By_uT']**2)`. -/
noncomputable def h_ut (bx byv : ℝ) : ℝ := Real.sqrt (bx ^ 2 + byv ^ 2)

/-- Source line 41: `np.degrees(np.arctan2(df['Bz_uT'], df['H_uT']))`. -/
noncomputable def dip_deg (bz h : ℝ) : ℝ := degrees (arctan2 bz h)

/-- Source line 45: `np.degrees(np.arctan2(df['By_uT'], df['Bx_uT']))`. -/
noncomputable def declination_deg (byv bx : ℝ) : ℝ := degrees (arctan2 byv bx)

/-! ### The Savitzky-Golay filter (external collaborator)

Modelled from the spec: `scipy.signal.savgol_filter` is an external
collaborator (glossary: "local polynomial regression filter"; §4.2 and
§7 describe its window validation).  We model its argument validation
— the polynomial order must be below the window length, and in the
default `interp` mode the window length must not exceed the data
length — and its data behaviour abstractly: the output has the
input's length, a missing value anywhere inside the fitting window of
a position makes that output position missing, and the fitted value
over a clean window is abstracted as the centre sample. -/

/-- The index window scipy fits around output position `i` of a
series of length `n` (mode `interp`): a centred window in the
interior, the first `wl` samples near the head, the last `wl` samples
near the tail. -/
def savgolWindow (n wl i : Nat) : List Nat :=
  if i < wl / 2 then List.range wl
  else if n ≤ i + wl / 2 then (List.range wl).map (fun j => n - wl + j)
  else (List.range wl).map (fun j => i - wl / 2 + j)

/-- The filter output on validated arguments: length-preserving, and
missing wherever the fitting window touches a missing input. -/
def savgolOut (xs : List Cell) (wl : Nat) : List Cell :=
  (List.range xs.length).map (fun i =>
    if (savgolWindow xs.length wl i).any (fun j => cellIsNan (xs.getD j Cell.nan))
    then Cell.nan
    else xs.getD i Cell.nan)

/-- Modelled from the spec: `scipy.signal.savgol_filter(x,
window_length, polyorder)` with its two argument checks. -/
def savgolFilter (xs : List Cell) (wl polyorder : Nat) :
    Except String (List Cell) :=
  if wl ≤ polyorder then
    Except.error "polyorder must be less than window_length."
  else if xs.length < wl then
    Except.error
      "If mode is interp, window_length must be less than or equal to the size of x."
  else Except.ok (savgolOut xs wl)

/-! ### The two pipeline stages (source lines 27-76) -/

/-- The angle-derivation stage (source lines 34-45, the spec's
`derive_angles`): coerce the five raw columns to numeric in place,
then append the horizontal magnitude, the dip angle and the
declination, each computed from the current state of the table. -/
noncomputable def derive_angles (df : DataFrame) : DataFrame :=
  let t1 := setCol df "Time_s" (toNumericCol (colOrNil df "Time_s"))
  let t2 := setCol t1 "Bx_uT" (toNumericCol (colOrNil t1 "Bx_uT"))
  let t3 := setCol t2 "By_uT" (toNumericCol (colOrNil t2 "By_uT"))
  let t4 := setCol t3 "Bz_uT" (toNumericCol (colOrNil t3 "Bz_uT"))
  let t5 := setCol t4 "Absolute_field_uT"
    (toNumericCol (colOrNil t4 "Absolute_field_uT"))
  let d1 := setCol t5 "H_uT"
    (zipWithCell h_ut (colOrNil t5 "Bx_uT") (colOrNil t5 "By_uT"))
  let d2 := setCol d1 "Dip_Angle_deg"
    (zipWithCell dip_deg (colOrNil d1 "Bz_uT") (colOrNil d1 "H_uT"))
  setCol d2 "Declination_deg"
    (zipWithCell declination_deg (colOrNil d2 "By_uT") (colOrNil d2 "Bx_uT"))

/-- The no-smoothing fallback (source lines 65-74): the three smoothed
columns are verbatim copies of their sources. -/
def copyBranch (df : DataFrame) : DataFrame :=
  let d1 := setCol df "Dip_Angle_smooth" (colOrNil df "Dip_Angle_deg")
  let d2 := setCol d1 "Declination_smooth" (colOrNil d1 "Declination_deg")
  setCol d2 "Bz_smooth" (colOrNil d2 "Bz_uT")

/-- The adaptive smoothing stage (source lines 47-74, the spec's
`smooth`): for more than ten rows pick the window and run the filter
over the three target columns in sequence, otherwise copy them; a
filter error propagates like the Python exception would. -/
def smooth (df : DataFrame) : Except String DataFrame :=
  let n := dfLen df
  if 10 < n then
    if 5 ≤ windowLength n then do
      let s1 ← savgolFilter (colOrNil df "Dip_Angle_deg") (windowLength n) 2
      let d1 := setCol df "Dip_Angle_smooth" s1
      let s2 ← savgolFilter (colOrNil d1 "Declination_deg") (windowLength n) 2
      let d2 := setCol d1 "Declination_smooth" s2
      let s3 ← savgolFilter (colOrNil d2 "Bz_uT") (windowLength n) 2
      Except.ok (setCol d2 "Bz_smooth" s3)
    else Except.ok (copyBranch df)
  else Except.ok (copyBranch df)

/-- Source lines 27-76: the whole core, angle derivation followed by
adaptive smoothing on the same table. -/
noncomputable def calculate_magnetic_parameters (df : DataFrame) :
    Except String DataFrame :=
  smooth (derive_angles df)

/-! ### Concrete tables used to instantiate the theorems -/

/-- A one-row table that already carries the three smoothing targets. -/
def exampleShort : DataFrame :=
  [("Dip_Angle_deg", [Cell.nan]), ("Declination_deg", [Cell.nan]),
   ("Bz_uT", [Cell.nan])]

/-- A one-row raw table with the five ingestion columns. -/
def exampleRaw : DataFrame :=
  [("Time_s", [Cell.num 0]), ("Bx_uT", [Cell.nan]), ("By_uT", [Cell.nan]),
   ("Bz_uT", [Cell.nan]), ("Absolute_field_uT", [Cell.nan])]

/-- A twelve-row table that already carries the three smoothing
targets (long enough for smoothing to engage). -/
def exampleLong : DataFrame :=
  [("Dip_Angle_deg", List.replicate 12 Cell.nan),
   ("Declination_deg", List.replicate 12 Cell.nan),
   ("Bz_uT", List.replicate 12 Cell.nan)]

/-! ### Theorems -/

theorem getCol_setCol (df : DataFrame) (c c' : String) (v : List Cell) :
    getCol (setCol df c v) c' = if c = c' then some v else getCol df c' := by
  induction df with
  | nil => simp [setCol, getCol]
  | cons p rest ih =>
    obtain ⟨cp, vp⟩ := p
    simp only [setCol]
    by_cases h1 : cp = c
    · subst h1
      by_cases h2 : cp = c' <;> simp [getCol, h2]
    · simp only [if_neg h1, getCol, ih]
      by_cases h2 : cp = c' <;> by_cases h3 : c = c' <;>
        simp [h2, h3] <;> simp_all

theorem colOrNil_setCol (df : DataFrame) (c c' : String) (v : List Cell) :
    colOrNil (setCol df c v) c' = if c = c' then v else colOrNil df c' := by
  unfold colOrNil
  rw [getCol_setCol]
  by_cases h : c = c' <;> simp [h]

theorem mem_setCol {p : String × List Cell} {df : DataFrame} {c : String}
    {v : List Cell} (h : p ∈ setCol df c v) : p ∈ df ∨ p = (c, v) := by
  induction df with
  | nil => simp [setCol] at h; simp [h]
  | cons q rest ih =>
    obtain ⟨cq, vq⟩ := q
    simp only [setCol] at h
    by_cases h1 : cq = c
    · rw [if_pos h1] at h
      rcases List.mem_cons.mp h with h2 | h2
      · exact Or.inr h2
      · exact Or.inl (List.mem_cons_of_mem _ h2)
    · rw [if_neg h1] at h
      rcases List.mem_cons.mp h with h2 | h2
      · exact Or.inl (by simp [h2])
      · rcases ih h2 with h3 | h3
        · exact Or.inl (List.mem_cons_of_mem _ h3)
        · exact Or.inr h3

theorem setCol_ne_nil (df : DataFrame) (c : String) (v : List Cell) :
    setCol df c v ≠ [] := by
  cases df with
  | nil => simp [setCol]
  | cons q rest =>
    obtain ⟨cq, vq⟩ := q
    simp only [setCol]
    split <;> simp

theorem toNumeric_toNumeric (c : Cell) : toNumeric (toNumeric c) = toNumeric c := by
  cases c <;> rfl

theorem toNumericCol_idem (xs : List Cell) :
    toNumericCol (toNumericCol xs) = toNumericCol xs := by
  induction xs with
  | nil => rfl
  | cons a l ih =>
    simp only [toNumericCol, List.map_cons] at ih ⊢
    rw [toNumeric_toNumeric, ih]

theorem toNumericCol_length (xs : List Cell) :
    (toNumericCol xs).length = xs.length := List.length_map xs toNumeric

theorem toNumeric_of_isNumeric {c : Cell} (h : c.isNumeric = true) :
    toNumeric c = c := by
  cases c <;> simp_all [Cell.isNumeric, toNumeric]

theorem toNumericCol_of_numeric {xs : List Cell}
    (h : xs.all Cell.isNumeric = true) : toNumericCol xs = xs := by
  induction xs with
  | nil => rfl
  | cons a l ih =>
    simp only [List.all_cons, Bool.and_eq_true] at h
    simp only [toNumericCol, List.map_cons]
    rw [toNumeric_of_isNumeric h.1]
    have := ih h.2
    simp only [toNumericCol] at this
    rw [this]

theorem zipWithCell_length (f : ℝ → ℝ → ℝ) (xs ys : List Cell) :
    (zipWithCell f xs ys).length = min xs.length ys.length :=
  List.length_zipWith _ xs ys

theorem colOrNil_derive_Bx (df : DataFrame) :
    colOrNil (derive_angles df) "Bx_uT" = toNumericCol (colOrNil df "Bx_uT") := by
  simp +decide [derive_angles, colOrNil_setCol]

theorem colOrNil_derive_By (df : DataFrame) :
    colOrNil (derive_angles df) "By_uT" = toNumericCol (colOrNil df "By_uT") := by
  simp +decide [derive_angles, colOrNil_setCol]

theorem colOrNil_derive_Bz (df : DataFrame) :
    colOrNil (derive_angles df) "Bz_uT" = toNumericCol (colOrNil df "Bz_uT") := by
  simp +decide [derive_angles, colOrNil_setCol]

theorem getCol_derive_H (df : DataFrame) :
    getCol (derive_angles df) "H_uT" =
      some (zipWithCell h_ut (toNumericCol (colOrNil df "Bx_uT"))
        (toNumericCol (colOrNil df "By_uT"))) := by
  simp +decide [derive_angles, getCol_setCol, colOrNil_setCol]

theorem getCol_derive_Dip (df : DataFrame) :
    getCol (derive_angles df) "Dip_Angle_deg" =
      some (zipWithCell dip_deg (toNumericCol (colOrNil df "Bz_uT"))
        (zipWithCell h_ut (toNumericCol (colOrNil df "Bx_uT"))
          (toNumericCol (colOrNil df "By_uT")))) := by
  simp +decide [derive_angles, getCol_setCol, colOrNil_setCol]

theorem getCol_derive_Decl (df : DataFrame) :
    getCol (derive_angles df) "Declination_deg" =
      some (zipWithCell declination_deg (toNumericCol (colOrNil df "By_uT"))
        (toNumericCol (colOrNil df "Bx_uT"))) := by
  simp +decide [derive_angles, getCol_setCol, colOrNil_setCol]

/-- Claim C9: the angle derivation is idempotent — re-running
`derive_angles` on its own output (it re-reads the same raw columns
and overwrites the derived ones) yields identical `H_uT`,
`Dip_Angle_deg` and `Declination_deg` columns. -/
theorem c9_derive_idempotent (df : DataFrame) :
    getCol (derive_angles (derive_angles df)) "H_uT" =
        getCol (derive_angles df) "H_uT" ∧
      getCol (derive_angles (derive_angles df)) "Dip_Angle_deg" =
        getCol (derive_angles df) "Dip_Angle_deg" ∧
      getCol (derive_angles (derive_angles df)) "Declination_deg" =
        getCol (derive_angles df) "Declination_deg" := by
  refine ⟨?_, ?_, ?_⟩ <;>
    simp [getCol_derive_H, getCol_derive_Dip, getCol_derive_Decl,
      colOrNil_derive_Bx, colOrNil_derive_By, colOrNil_derive_Bz,
      toNumericCol_idem]

theorem arctan_nonpos' {x : ℝ} (h : x ≤ 0) : Real.arctan x ≤ 0 := by
  have := Real.arctan_strictMono.monotone h
  rwa [Real.arctan_zero] at this

theorem arctan_pos' {x : ℝ} (h : 0 < x) : 0 < Real.arctan x := by
  have := Real.arctan_strictMono h
  rwa [Real.arctan_zero] at this

/-- `arctan2` always lands in `(-π, π]`. -/
theorem arctan2_mem (y x : ℝ) :
    -Real.pi < arctan2 y x ∧ arctan2 y x ≤ Real.pi := by
  have hπ := Real.pi_pos
  have h1 := Real.arctan_lt_pi_div_two (y / x)
  have h2 := Real.neg_pi_div_two_lt_arctan (y / x)
  unfold arctan2
  split_ifs with hx hx' hy hy' hy''
  · constructor <;> linarith
  · have hd : y / x ≤ 0 := div_nonpos_iff.mpr (Or.inl ⟨hy, le_of_lt hx'⟩)
    have := arctan_nonpos' hd
    constructor <;> linarith
  · have hd : 0 < y / x := div_pos_iff.mpr (Or.inr ⟨by linarith, hx'⟩)
    have := arctan_pos' hd
    constructor <;> linarith
  · constructor <;> linarith
  · constructor <;> linarith
  · constructor <;> linarith

theorem pi_mul_deg : Real.pi * (180 / Real.pi) = 180 := by
  field_simp

/-- Degrees conversion maps `(-π, π]` into `(-180, 180]`. -/
theorem degrees_mem {a : ℝ} (h1 : -Real.pi < a) (h2 : a ≤ Real.pi) :
    -180 < degrees a ∧ degrees a ≤ 180 := by
  have hπ := Real.pi_pos
  have hk : (0 : ℝ) < 180 / Real.pi := by positivity
  constructor
  · have := mul_lt_mul_of_pos_right h1 hk
    rw [neg_mul] at this
    unfold degrees
    nlinarith [pi_mul_deg]
  · have := mul_le_mul_of_nonneg_right h2 (le_of_lt hk)
    unfold degrees
    nlinarith [pi_mul_deg]

/-- Claim C3: for every sample, the Angle Deriver produces
`h_ut = hypot(bx, by)` (hence nonnegative), `dip_deg = degrees of
arctan2(bz, h)` and `declination_deg = degrees of arctan2(by, bx)`,
and the two-argument arctangent keeps both angles well defined when
`bx = 0` or `h = 0` (for instance declination is 90° due east). -/
theorem c3_angle_formulas (bx byv bz : ℝ) :
    h_ut bx byv = hypot bx byv ∧ 0 ≤ h_ut bx byv ∧
      dip_deg bz (h_ut bx byv) = degrees (arctan2 bz (h_ut bx byv)) ∧
      declination_deg byv bx = degrees (arctan2 byv bx) ∧
      declination_deg 1 0 = 90 := by
  refine ⟨?_, Real.sqrt_nonneg _, rfl, rfl, ?_⟩
  · unfold h_ut hypot
    ring_nf
  · unfold declination_deg arctan2 degrees
    norm_num
    field_simp
    ring

/-- Claim C5: for every sample, the declination lies in
`(-180°, 180°]`, and at `bx = by = 0` it is `0°` by the
`arctan2 0 0 = 0` convention rather than an error. -/
theorem c5_declination_range (bx byv : ℝ) :
    (-180 < declination_deg byv bx ∧ declination_deg byv bx ≤ 180) ∧
      declination_deg 0 0 = 0 := by
  refine ⟨?_, ?_⟩
  · exact degrees_mem (arctan2_mem byv bx).1 (arctan2_mem byv bx).2
  · unfold declination_deg arctan2 degrees
    norm_num

/-- Claim C6: for every sample with positive horizontal magnitude,
the dip angle lies in `[-90°, 90°]` and its tangent recovers
`bz / h`. -/
theorem c6_dip_range (bx byv bz : ℝ) (hpos : 0 < h_ut bx byv) :
    (-90 ≤ dip_deg bz (h_ut bx byv) ∧ dip_deg bz (h_ut bx byv) ≤ 90) ∧
      Real.tan (radians (dip_deg bz (h_ut bx byv))) = bz / h_ut bx byv := by
  have hπ := Real.pi_pos
  set h := h_ut bx byv with hh
  have harct : arctan2 bz h = Real.arctan (bz / h) := by
    unfold arctan2
    rw [if_pos hpos]
  have h1 := Real.arctan_lt_pi_div_two (bz / h)
  have h2 := Real.neg_pi_div_two_lt_arctan (bz / h)
  have hk : (0 : ℝ) < 180 / Real.pi := by positivity
  constructor
  · unfold dip_deg degrees
    rw [harct]
    constructor
    · have := mul_le_mul_of_nonneg_right (le_of_lt h2) (le_of_lt hk)
      nlinarith [pi_mul_deg]
    · have := mul_le_mul_of_nonneg_right (le_of_lt h1) (le_of_lt hk)
      nlinarith [pi_mul_deg]
  · unfold dip_deg degrees radians
    rw [harct]
    have hcancel : Real.arctan (bz / h) * (180 / Real.pi) * (Real.pi / 180)
        = Real.arctan (bz / h) := by
      field_simp
    rw [hcancel, Real.tan_arctan]

/-- Witness for `c6_dip_range` at `(bx, by, bz) = (1, 0, 0)`. -/
theorem c6_dip_range_witness :
    0 < h_ut 1 0 ∧
      ((-90 ≤ dip_deg 0 (h_ut 1 0) ∧ dip_deg 0 (h_ut 1 0) ≤ 90) ∧
        Real.tan (radians (dip_deg 0 (h_ut 1 0))) = 0 / h_ut 1 0) :=
  have hpos : 0 < h_ut 1 0 := by
    unfold h_ut
    positivity
  ⟨hpos, c6_dip_range 1 0 0 hpos⟩

theorem windowLength_odd_bounds (n : Nat) (h : 10 < n) :
    windowLength n % 2 = 1 ∧ 5 ≤ windowLength n ∧ windowLength n ≤ 21 ∧
      windowLength n ≤ n := by
  unfold windowLength
  rcases Nat.lt_or_ge n 21 with hn | hn <;> split <;> omega

/-- Claim C1 (counterexample): at series length 200 the script's
window length is 21, not the 51 the claim asserts — the selection is
capped above at 21 by source line 51. -/
theorem c1_counterexample :
    windowLength 200 = 21 ∧ windowLength 200 ≠ 51 ∧
      claimWindowNoCap 200 = 51 := by decide

/-- Claim C1 (amended): for every series length n > 10, the selected
window equals candidate = n // 4 if that is odd, otherwise
n // 4 + 1, capped above at 21, then raised to at least 5; in
particular, for n = 200 the window length is 21. -/
theorem c1_window_selection :
    (∀ n : Nat, 10 < n → windowLength n = amendedWindow n) ∧
      windowLength 200 = 21 := by
  constructor
  · intro n _
    unfold windowLength amendedWindow
    omega
  · decide

/-- Witness for `c1_window_selection` at n = 200. -/
theorem c1_window_selection_witness :
    windowLength 200 = amendedWindow 200 ∧ windowLength 200 = 21 :=
  ⟨c1_window_selection.1 200 (by decide), c1_window_selection.2⟩

theorem smooth_of_le (df : DataFrame) (h : dfLen df ≤ 10) :
    smooth df = Except.ok (copyBranch df) := by
  simp [smooth, Nat.not_lt.mpr h]

theorem getCol_copyBranch_dip (df : DataFrame) :
    getCol (copyBranch df) "Dip_Angle_smooth" =
      some (colOrNil df "Dip_Angle_deg") := by
  simp +decide [copyBranch, getCol_setCol, colOrNil_setCol]

theorem getCol_copyBranch_decl (df : DataFrame) :
    getCol (copyBranch df) "Declination_smooth" =
      some (colOrNil df "Declination_deg") := by
  simp +decide [copyBranch, getCol_setCol, colOrNil_setCol]

theorem getCol_copyBranch_bz (df : DataFrame) :
    getCol (copyBranch df) "Bz_smooth" = some (colOrNil df "Bz_uT") := by
  simp +decide [copyBranch, getCol_setCol, colOrNil_setCol]

theorem getCol_copyBranch_ne (df : DataFrame) (c : String)
    (h1 : c ≠ "Dip_Angle_smooth") (h2 : c ≠ "Declination_smooth")
    (h3 : c ≠ "Bz_smooth") : getCol (copyBranch df) c = getCol df c := by
  simp [copyBranch, getCol_setCol, Ne.symm h1, Ne.symm h2, Ne.symm h3]

/-- Claim C4: for a series of at most ten rows, smoothing is disabled
and each of the three smoothed columns is a verbatim copy of its
source column. -/
theorem c4_disabled_copies (df : DataFrame) (h : dfLen df ≤ 10)
    (hd : (getCol df "Dip_Angle_deg").isSome = true)
    (he : (getCol df "Declination_deg").isSome = true)
    (hb : (getCol df "Bz_uT").isSome = true) :
    (smooth df).map (fun d => getCol d "Dip_Angle_smooth") =
        Except.ok (getCol df "Dip_Angle_deg") ∧
      (smooth df).map (fun d => getCol d "Declination_smooth") =
        Except.ok (getCol df "Declination_deg") ∧
      (smooth df).map (fun d => getCol d "Bz_smooth") =
        Except.ok (getCol df "Bz_uT") := by
  obtain ⟨vd, hvd⟩ := Option.isSome_iff_exists.mp hd
  obtain ⟨ve, hve⟩ := Option.isSome_iff_exists.mp he
  obtain ⟨vb, hvb⟩ := Option.isSome_iff_exists.mp hb
  rw [smooth_of_le df h]
  refine ⟨?_, ?_, ?_⟩ <;>
    simp [Except.map, getCol_copyBranch_dip, getCol_copyBranch_decl,
      getCol_copyBranch_bz, colOrNil, hvd, hve, hvb]

/-- Witness for `c4_disabled_copies` on a concrete one-row table. -/
theorem c4_disabled_copies_witness :
    (smooth exampleShort).map (fun d => getCol d "Dip_Angle_smooth") =
        Except.ok (getCol exampleShort "Dip_Angle_deg") ∧
      (smooth exampleShort).map (fun d => getCol d "Declination_smooth") =
        Except.ok (getCol exampleShort "Declination_deg") ∧
      (smooth exampleShort).map (fun d => getCol d "Bz_smooth") =
        Except.ok (getCol exampleShort "Bz_uT") :=
  c4_disabled_copies exampleShort (by decide) (by decide) (by decide) (by decide)

theorem i_mem_savgolWindow {n wl i : Nat} (h0 : 0 < wl) (hwl : wl ≤ n)
    (hi : i < n) : i ∈ savgolWindow n wl i := by
  unfold savgolWindow
  split_ifs with h1 h2
  · exact List.mem_range.mpr (by omega)
  · simp only [List.mem_map, List.mem_range]
    exact ⟨i - (n - wl), by omega, by omega⟩
  · simp only [List.mem_map, List.mem_range]
    exact ⟨wl / 2, by omega, by omega⟩

theorem savgolOut_length (xs : List Cell) (wl : Nat) :
    (savgolOut xs wl).length = xs.length := by
  simp [savgolOut]

theorem savgolOut_nan {xs : List Cell} {wl i : Nat} (h0 : 0 < wl)
    (hwl : wl ≤ xs.length) (hi : i < xs.length)
    (hnan : xs.getD i Cell.nan = Cell.nan) :
    (savgolOut xs wl).getD i Cell.nan = Cell.nan := by
  have hlen : ((List.range xs.length).map (fun j =>
      if (savgolWindow xs.length wl j).any
          (fun k => cellIsNan (xs.getD k Cell.nan)) then Cell.nan
      else xs.getD j Cell.nan)).length = xs.length := by
    simp
  unfold savgolOut
  rw [List.getD_eq_getElem _ _ (by simp [hi]), List.getElem_map,
    List.getElem_range]
  have hany : (savgolWindow xs.length wl i).any
      (fun k => cellIsNan (xs.getD k Cell.nan)) = true := by
    refine List.any_eq_true.mpr ⟨i, i_mem_savgolWindow h0 hwl hi, ?_⟩
    rw [hnan]
    rfl
  rw [if_pos hany]

theorem savgolFilter_ok {xs : List Cell} {wl po : Nat} (h1 : po < wl)
    (h2 : wl ≤ xs.length) :
    savgolFilter xs wl po = Except.ok (savgolOut xs wl) := by
  unfold savgolFilter
  rw [if_neg (by omega), if_neg (by omega)]

theorem exceptBindOk {α β : Type} (a : α) (f : α → Except String β) :
    (Except.ok a >>= f) = f a := rfl

theorem exceptBindErr {α β : Type} (e : String) (f : α → Except String β) :
    (Except.error e >>= f) = Except.error e := rfl

/-- Closed form of the smoothing stage when it engages: all three
filter calls succeed and set the three smoothed columns. -/
theorem smooth_of_gt (df : DataFrame) (h : 10 < dfLen df)
    (l1 : windowLength (dfLen df) ≤ (colOrNil df "Dip_Angle_deg").length)
    (l2 : windowLength (dfLen df) ≤ (colOrNil df "Declination_deg").length)
    (l3 : windowLength (dfLen df) ≤ (colOrNil df "Bz_uT").length) :
    smooth df = Except.ok (setCol (setCol (setCol df
      "Dip_Angle_smooth"
        (savgolOut (colOrNil df "Dip_Angle_deg") (windowLength (dfLen df))))
      "Declination_smooth"
        (savgolOut (colOrNil df "Declination_deg") (windowLength (dfLen df))))
      "Bz_smooth"
        (savgolOut (colOrNil df "Bz_uT") (windowLength (dfLen df)))) := by
  have hw := windowLength_odd_bounds (dfLen df) h
  have h2 : (2 : Nat) < windowLength (dfLen df) := by omega
  unfold smooth
  rw [if_pos h, if_pos (by omega)]
  rw [savgolFilter_ok h2 l1]
  simp only [exceptBindOk]
  rw [show colOrNil (setCol df "Dip_Angle_smooth"
        (savgolOut (colOrNil df "Dip_Angle_deg") (windowLength (dfLen df))))
        "Declination_deg" = colOrNil df "Declination_deg" from by
      simp +decide [colOrNil_setCol]]
  rw [savgolFilter_ok h2 l2]
  simp only [exceptBindOk]
  rw [show colOrNil (setCol (setCol df "Dip_Angle_smooth"
        (savgolOut (colOrNil df "Dip_Angle_deg") (windowLength (dfLen df))))
        "Declination_smooth"
        (savgolOut (colOrNil df "Declination_deg") (windowLength (dfLen df))))
        "Bz_uT" = colOrNil df "Bz_uT" from by
      simp +decide [colOrNil_setCol]]
  rw [savgolFilter_ok h2 l3]
  rfl

/-- Inversion of a successful smoothing run on a long series: each
filter argument check must have passed, and the result is the
three-column update. -/
theorem smooth_enabled_inv {df df' : DataFrame} (h : 10 < dfLen df)
    (hok : smooth df = Except.ok df') :
    windowLength (dfLen df) ≤ (colOrNil df "Dip_Angle_deg").length ∧
      windowLength (dfLen df) ≤ (colOrNil df "Declination_deg").length ∧
      windowLength (dfLen df) ≤ (colOrNil df "Bz_uT").length ∧
      df' = setCol (setCol (setCol df
        "Dip_Angle_smooth"
          (savgolOut (colOrNil df "Dip_Angle_deg") (windowLength (dfLen df))))
        "Declination_smooth"
          (savgolOut (colOrNil df "Declination_deg") (windowLength (dfLen df))))
        "Bz_smooth"
          (savgolOut (colOrNil df "Bz_uT") (windowLength (dfLen df))) := by
  have hw := windowLength_odd_bounds (dfLen df) h
  have hl1 : windowLength (dfLen df) ≤ (colOrNil df "Dip_Angle_deg").length := by
    by_contra hc
    rw [smooth, if_pos h, if_pos (by omega), savgolFilter,
      if_neg (by omega), if_pos (by omega)] at hok
    simp only [exceptBindErr] at hok
    exact Except.noConfusion hok
  have hl2 : windowLength (dfLen df) ≤ (colOrNil df "Declination_deg").length := by
    by_contra hc
    rw [smooth, if_pos h, if_pos (by omega), savgolFilter_ok (by omega) hl1] at hok
    simp only [exceptBindOk] at hok
    rw [show colOrNil (setCol df "Dip_Angle_smooth"
          (savgolOut (colOrNil df "Dip_Angle_deg") (windowLength (dfLen df))))
          "Declination_deg" = colOrNil df "Declination_deg" from by
        simp +decide [colOrNil_setCol]] at hok
    rw [savgolFilter, if_neg (by omega), if_pos (by omega)] at hok
    simp only [exceptBindErr] at hok
    exact Except.noConfusion hok
  have hl3 : windowLength (dfLen df) ≤ (colOrNil df "Bz_uT").length := by
    by_contra hc
    rw [smooth, if_pos h, if_pos (by omega), savgolFilter_ok (by omega) hl1] at hok
    simp only [exceptBindOk] at hok
    rw [show colOrNil (setCol df "Dip_Angle_smooth"
          (savgolOut (colOrNil df "Dip_Angle_deg") (windowLength (dfLen df))))
          "Declination_deg" = colOrNil df "Declination_deg" from by
        simp +decide [colOrNil_setCol]] at hok
    rw [savgolFilter_ok (by omega) hl2] at hok
    simp only [exceptBindOk] at hok
    rw [show colOrNil (setCol (setCol df "Dip_Angle_smooth"
          (savgolOut (colOrNil df "Dip_Angle_deg") (windowLength (dfLen df))))
          "Declination_smooth"
          (savgolOut (colOrNil df "Declination_deg") (windowLength (dfLen df))))
          "Bz_uT" = colOrNil df "Bz_uT" from by
        simp +decide [colOrNil_setCol]] at hok
    rw [savgolFilter, if_neg (by omega), if_pos (by omega)] at hok
    simp only [exceptBindErr] at hok
    exact Except.noConfusion hok
  refine ⟨hl1, hl2, hl3, ?_⟩
  rw [smooth_of_gt df h hl1 hl2 hl3] at hok
  injection hok with hh
  exact hh.symm

/-- Claim C8: non-numeric raw cells become the missing-value marker
rather than raising; the derived quantities (horizontal magnitude,
dip, declination) propagate a missing operand as a missing result
element-wise; and each smoothed column is missing wherever its source
column is missing, in both the filtered and the copy branch — one bad
sample never produces a fatal error. -/
theorem c8_missing_propagation :
    (∀ s : String, toNumeric (Cell.text s) = Cell.nan) ∧
      (∀ a b : Cell, a = Cell.nan ∨ b = Cell.nan → cellOp2 h_ut a b = Cell.nan) ∧
      (∀ a b : Cell, a = Cell.nan ∨ b = Cell.nan → cellOp2 dip_deg a b = Cell.nan) ∧
      (∀ a b : Cell, a = Cell.nan ∨ b = Cell.nan →
        cellOp2 declination_deg a b = Cell.nan) ∧
      (∀ df df' i, smooth df = Except.ok df' →
        i < (colOrNil df "Dip_Angle_deg").length →
        (colOrNil df "Dip_Angle_deg").getD i Cell.nan = Cell.nan →
        (colOrNil df' "Dip_Angle_smooth").getD i Cell.nan = Cell.nan) ∧
      (∀ df df' i, smooth df = Except.ok df' →
        i < (colOrNil df "Declination_deg").length →
        (colOrNil df "Declination_deg").getD i Cell.nan = Cell.nan →
        (colOrNil df' "Declination_smooth").getD i Cell.nan = Cell.nan) ∧
      (∀ df df' i, smooth df = Except.ok df' →
        i < (colOrNil df "Bz_uT").length →
        (colOrNil df "Bz_uT").getD i Cell.nan = Cell.nan →
        (colOrNil df' "Bz_smooth").getD i Cell.nan = Cell.nan) := by
  refine ⟨fun s => rfl, ?_, ?_, ?_, ?_, ?_, ?_⟩
  · rintro a b (rfl | rfl)
    · cases b <;> rfl
    · cases a <;> rfl
  · rintro a b (rfl | rfl)
    · cases b <;> rfl
    · cases a <;> rfl
  · rintro a b (rfl | rfl)
    · cases b <;> rfl
    · cases a <;> rfl
  · intro df df' i hok hi hnan
    by_cases h : 10 < dfLen df
    · obtain ⟨hl1, hl2, hl3, rfl⟩ := smooth_enabled_inv h hok
      rw [show colOrNil (setCol (setCol (setCol df
          "Dip_Angle_smooth"
            (savgolOut (colOrNil df "Dip_Angle_deg") (windowLength (dfLen df))))
          "Declination_smooth"
            (savgolOut (colOrNil df "Declination_deg") (windowLength (dfLen df))))
          "Bz_smooth"
            (savgolOut (colOrNil df "Bz_uT") (windowLength (dfLen df))))
          "Dip_Angle_smooth"
          = savgolOut (colOrNil df "Dip_Angle_deg") (windowLength (dfLen df)) from by
        simp +decide [colOrNil_setCol]]
      have hw := windowLength_odd_bounds (dfLen df) h
      exact savgolOut_nan (by omega) hl1 hi hnan
    · rw [smooth_of_le df (by omega)] at hok
      injection hok with hh
      subst hh
      rw [show colOrNil (copyBranch df) "Dip_Angle_smooth"
          = colOrNil df "Dip_Angle_deg" from by
        simp [colOrNil, getCol_copyBranch_dip]]
      exact hnan
  · intro df df' i hok hi hnan
    by_cases h : 10 < dfLen df
    · obtain ⟨hl1, hl2, hl3, rfl⟩ := smooth_enabled_inv h hok
      rw [show colOrNil (setCol (setCol (setCol df
          "Dip_Angle_smooth"
            (savgolOut (colOrNil df "Dip_Angle_deg") (windowLength (dfLen df))))
          "Declination_smooth"
            (savgolOut (colOrNil df "Declination_deg") (windowLength (dfLen df))))
          "Bz_smooth"
            (savgolOut (colOrNil df "Bz_uT") (windowLength (dfLen df))))
          "Declination_smooth"
          = savgolOut (colOrNil df "Declination_deg") (windowLength (dfLen df)) from by
        simp +decide [colOrNil_setCol]]
      have hw := windowLength_odd_bounds (dfLen df) h
      exact savgolOut_nan (by omega) hl2 hi hnan
    · rw [smooth_of_le df (by omega)] at hok
      injection hok with hh
      subst hh
      rw [show colOrNil (copyBranch df) "Declination_smooth"
          = colOrNil df "Declination_deg" from by
        simp [colOrNil, getCol_copyBranch_decl]]
      exact hnan
  · intro df df' i hok hi hnan
    by_cases h : 10 < dfLen df
    · obtain ⟨hl1, hl2, hl3, rfl⟩ := smooth_enabled_inv h hok
      rw [show colOrNil (setCol (setCol (setCol df
          "Dip_Angle_smooth"
            (savgolOut (colOrNil df "Dip_Angle_deg") (windowLength (dfLen df))))
          "Declination_smooth"
            (savgolOut (colOrNil df "Declination_deg") (windowLength (dfLen df))))
          "Bz_smooth"
            (savgolOut (colOrNil df "Bz_uT") (windowLength (dfLen df))))
          "Bz_smooth"
          = savgolOut (colOrNil df "Bz_uT") (windowLength (dfLen df)) from by
        simp +decide [colOrNil_setCol]]
      have hw := windowLength_odd_bounds (dfLen df) h
      exact savgolOut_nan (by omega) hl3 hi hnan
    · rw [smooth_of_le df (by omega)] at hok
      injection hok with hh
      subst hh
      rw [show colOrNil (copyBranch df) "Bz_smooth"
          = colOrNil df "Bz_uT" from by
        simp [colOrNil, getCol_copyBranch_bz]]
      exact hnan

/-- Witness for `c8_missing_propagation` on concrete cells and a
concrete one-row table (whose smoothing run is a copy). -/
theorem c8_missing_propagation_witness :
    toNumeric (Cell.text "bad") = Cell.nan ∧
      cellOp2 h_ut Cell.nan (Cell.num 1) = Cell.nan ∧
      cellOp2 dip_deg (Cell.num 1) Cell.nan = Cell.nan ∧
      cellOp2 declination_deg Cell.nan Cell.nan = Cell.nan ∧
      (colOrNil (copyBranch exampleShort) "Dip_Angle_smooth").getD 0 Cell.nan
        = Cell.nan ∧
      (colOrNil (copyBranch exampleShort) "Declination_smooth").getD 0 Cell.nan
        = Cell.nan ∧
      (colOrNil (copyBranch exampleShort) "Bz_smooth").getD 0 Cell.nan
        = Cell.nan :=
  ⟨c8_missing_propagation.1 "bad",
   c8_missing_propagation.2.1 Cell.nan (Cell.num 1) (Or.inl rfl),
   c8_missing_propagation.2.2.1 (Cell.num 1) Cell.nan (Or.inr rfl),
   c8_missing_propagation.2.2.2.1 Cell.nan Cell.nan (Or.inl rfl),
   c8_missing_propagation.2.2.2.2.1 exampleShort (copyBranch exampleShort) 0
     rfl (by decide) rfl,
   c8_missing_propagation.2.2.2.2.2.1 exampleShort (copyBranch exampleShort) 0
     rfl (by decide) rfl,
   c8_missing_propagation.2.2.2.2.2.2 exampleShort (copyBranch exampleShort) 0
     rfl (by decide) rfl⟩

/-- Claim C10 (implicit): for every series longer than ten rows the
selected window length is an odd integer between 5 and 21 and never
exceeds the series length; consequently the filter's
window-exceeds-length error is unreachable and the `window_length <
5` fallback is dead code — on a long series the smoothing branch
always runs and succeeds. -/
theorem c10_window_safety (df : DataFrame)
    (l1 : (colOrNil df "Dip_Angle_deg").length = dfLen df)
    (l2 : (colOrNil df "Declination_deg").length = dfLen df)
    (l3 : (colOrNil df "Bz_uT").length = dfLen df)
    (h : 10 < dfLen df) :
    (Odd (windowLength (dfLen df)) ∧ 5 ≤ windowLength (dfLen df) ∧
      windowLength (dfLen df) ≤ 21 ∧ windowLength (dfLen df) ≤ dfLen df) ∧
    smooth df = Except.ok (setCol (setCol (setCol df
      "Dip_Angle_smooth"
        (savgolOut (colOrNil df "Dip_Angle_deg") (windowLength (dfLen df))))
      "Declination_smooth"
        (savgolOut (colOrNil df "Declination_deg") (windowLength (dfLen df))))
      "Bz_smooth"
        (savgolOut (colOrNil df "Bz_uT") (windowLength (dfLen df)))) := by
  have hw := windowLength_odd_bounds (dfLen df) h
  exact ⟨⟨Nat.odd_iff.mpr hw.1, hw.2.1, hw.2.2.1, hw.2.2.2⟩,
    smooth_of_gt df h (by omega) (by omega) (by omega)⟩

/-- Witness for `c10_window_safety` on a concrete twelve-row table. -/
theorem c10_window_safety_witness :
    (Odd (windowLength (dfLen exampleLong)) ∧
      5 ≤ windowLength (dfLen exampleLong) ∧
      windowLength (dfLen exampleLong) ≤ 21 ∧
      windowLength (dfLen exampleLong) ≤ dfLen exampleLong) ∧
    smooth exampleLong = Except.ok (setCol (setCol (setCol exampleLong
      "Dip_Angle_smooth"
        (savgolOut (colOrNil exampleLong "Dip_Angle_deg")
          (windowLength (dfLen exampleLong))))
      "Declination_smooth"
        (savgolOut (colOrNil exampleLong "Declination_deg")
          (windowLength (dfLen exampleLong))))
      "Bz_smooth"
        (savgolOut (colOrNil exampleLong "Bz_uT")
          (windowLength (dfLen exampleLong)))) :=
  c10_window_safety exampleLong (by decide) (by decide) (by decide) (by decide)

theorem getCol_mem {df : DataFrame} {c : String} {v : List Cell}
    (h : getCol df c = some v) : (c, v) ∈ df := by
  induction df with
  | nil => simp [getCol] at h
  | cons q rest ih =>
    obtain ⟨cq, vq⟩ := q
    simp only [getCol] at h
    by_cases h1 : cq = c
    · rw [if_pos h1] at h
      injection h with h
      subst h1
      subst h
      exact List.mem_cons_self _ _
    · rw [if_neg h1] at h
      exact List.mem_cons_of_mem _ (ih h)

theorem allNumeric_col {df : DataFrame} {c : String} {v : List Cell}
    (hnum : dfAllNumeric df = true) (h : getCol df c = some v) :
    v.all Cell.isNumeric = true :=
  List.all_eq_true.mp hnum _ (getCol_mem h)

theorem colsLen_col {df : DataFrame} {m : Nat} {c : String} {v : List Cell}
    (hwf : dfColsLen df m = true) (h : getCol df c = some v) :
    v.length = m := by
  simpa using List.all_eq_true.mp hwf _ (getCol_mem h)

theorem dfLen_eq_of_all {df : DataFrame} {m : Nat} (hne : df ≠ [])
    (h : ∀ p ∈ df, p.2.length = m) : dfLen df = m := by
  cases df with
  | nil => exact absurd rfl hne
  | cons q rest => simpa [dfLen] using h q (by simp)

theorem getCol_derive_Time (df : DataFrame) :
    getCol (derive_angles df) "Time_s"
      = some (toNumericCol (colOrNil df "Time_s")) := by
  simp +decide [derive_angles, getCol_setCol, colOrNil_setCol]

theorem getCol_derive_Bx (df : DataFrame) :
    getCol (derive_angles df) "Bx_uT"
      = some (toNumericCol (colOrNil df "Bx_uT")) := by
  simp +decide [derive_angles, getCol_setCol, colOrNil_setCol]

theorem getCol_derive_By (df : DataFrame) :
    getCol (derive_angles df) "By_uT"
      = some (toNumericCol (colOrNil df "By_uT")) := by
  simp +decide [derive_angles, getCol_setCol, colOrNil_setCol]

theorem getCol_derive_Bz (df : DataFrame) :
    getCol (derive_angles df) "Bz_uT"
      = some (toNumericCol (colOrNil df "Bz_uT")) := by
  simp +decide [derive_angles, getCol_setCol, colOrNil_setCol]

theorem getCol_derive_Abs (df : DataFrame) :
    getCol (derive_angles df) "Absolute_field_uT"
      = some (toNumericCol (colOrNil df "Absolute_field_uT")) := by
  simp +decide [derive_angles, getCol_setCol, colOrNil_setCol]

/-- The derivation stage with every intermediate read resolved
against the input table. -/
theorem derive_angles_eq (df : DataFrame) :
    derive_angles df =
      setCol (setCol (setCol (setCol (setCol (setCol (setCol (setCol df
        "Time_s" (toNumericCol (colOrNil df "Time_s")))
        "Bx_uT" (toNumericCol (colOrNil df "Bx_uT")))
        "By_uT" (toNumericCol (colOrNil df "By_uT")))
        "Bz_uT" (toNumericCol (colOrNil df "Bz_uT")))
        "Absolute_field_uT" (toNumericCol (colOrNil df "Absolute_field_uT")))
        "H_uT" (zipWithCell h_ut (toNumericCol (colOrNil df "Bx_uT"))
          (toNumericCol (colOrNil df "By_uT"))))
        "Dip_Angle_deg" (zipWithCell dip_deg (toNumericCol (colOrNil df "Bz_uT"))
          (zipWithCell h_ut (toNumericCol (colOrNil df "Bx_uT"))
            (toNumericCol (colOrNil df "By_uT")))))
        "Declination_deg" (zipWithCell declination_deg
          (toNumericCol (colOrNil df "By_uT"))
          (toNumericCol (colOrNil df "Bx_uT"))) := by
  simp +decide [derive_angles, colOrNil_setCol]

/-- Claim C7: each stage only appends its new columns.  On a table
with the raw schema, numeric-or-missing cells and consistent column
lengths: the Angle Deriver changes no previously present column and
appends `H_uT`, `Dip_Angle_deg`, `Declination_deg` with the row
count's length; the Smoother succeeds, changes no previously present
column (in particular none of the filter's inputs) and appends
exactly the three smoothed columns, each with the row count's
length. -/
theorem c7_frame_effects (df : DataFrame)
    (hT : (getCol df "Time_s").isSome = true)
    (hx : (getCol df "Bx_uT").isSome = true)
    (hy : (getCol df "By_uT").isSome = true)
    (hz : (getCol df "Bz_uT").isSome = true)
    (ha : (getCol df "Absolute_field_uT").isSome = true)
    (hnum : dfAllNumeric df = true)
    (hwf : dfColsLen df (dfLen df) = true) :
    (∀ c : String, c ≠ "H_uT" → c ≠ "Dip_Angle_deg" → c ≠ "Declination_deg" →
      getCol (derive_angles df) c = getCol df c) ∧
    ((getCol (derive_angles df) "H_uT").isSome = true ∧
      (colOrNil (derive_angles df) "H_uT").length = dfLen df ∧
      (getCol (derive_angles df) "Dip_Angle_deg").isSome = true ∧
      (colOrNil (derive_angles df) "Dip_Angle_deg").length = dfLen df ∧
      (getCol (derive_angles df) "Declination_deg").isSome = true ∧
      (colOrNil (derive_angles df) "Declination_deg").length = dfLen df) ∧
    ((∀ c : String, c ≠ "Dip_Angle_smooth" → c ≠ "Declination_smooth" →
        c ≠ "Bz_smooth" →
        (smooth (derive_angles df)).map (fun x => getCol x c)
          = Except.ok (getCol (derive_angles df) c)) ∧
      (smooth (derive_angles df)).map
        (fun x => (getCol x "Dip_Angle_smooth").isSome) = Except.ok true ∧
      (smooth (derive_angles df)).map
        (fun x => (colOrNil x "Dip_Angle_smooth").length)
          = Except.ok (dfLen df) ∧
      (smooth (derive_angles df)).map
        (fun x => (getCol x "Declination_smooth").isSome) = Except.ok true ∧
      (smooth (derive_angles df)).map
        (fun x => (colOrNil x "Declination_smooth").length)
          = Except.ok (dfLen df) ∧
      (smooth (derive_angles df)).map
        (fun x => (getCol x "Bz_smooth").isSome) = Except.ok true ∧
      (smooth (derive_angles df)).map
        (fun x => (colOrNil x "Bz_smooth").length) = Except.ok (dfLen df)) := by
  obtain ⟨vT, hvT⟩ := Option.isSome_iff_exists.mp hT
  obtain ⟨vx, hvx⟩ := Option.isSome_iff_exists.mp hx
  obtain ⟨vy, hvy⟩ := Option.isSome_iff_exists.mp hy
  obtain ⟨vz, hvz⟩ := Option.isSome_iff_exists.mp hz
  obtain ⟨va, hva⟩ := Option.isSome_iff_exists.mp ha
  have hcT : colOrNil df "Time_s" = vT := by simp [colOrNil, hvT]
  have hcx : colOrNil df "Bx_uT" = vx := by simp [colOrNil, hvx]
  have hcy : colOrNil df "By_uT" = vy := by simp [colOrNil, hvy]
  have hcz : colOrNil df "Bz_uT" = vz := by simp [colOrNil, hvz]
  have hca : colOrNil df "Absolute_field_uT" = va := by simp [colOrNil, hva]
  have hlT : vT.length = dfLen df := colsLen_col hwf hvT
  have hlx : vx.length = dfLen df := colsLen_col hwf hvx
  have hly : vy.length = dfLen df := colsLen_col hwf hvy
  have hlz : vz.length = dfLen df := colsLen_col hwf hvz
  have hla : va.length = dfLen df := colsLen_col hwf hva
  have hnT : toNumericCol vT = vT := toNumericCol_of_numeric (allNumeric_col hnum hvT)
  have hnx : toNumericCol vx = vx := toNumericCol_of_numeric (allNumeric_col hnum hvx)
  have hny : toNumericCol vy = vy := toNumericCol_of_numeric (allNumeric_col hnum hvy)
  have hnz : toNumericCol vz = vz := toNumericCol_of_numeric (allNumeric_col hnum hvz)
  have hna : toNumericCol va = va := toNumericCol_of_numeric (allNumeric_col hnum hva)
  have frameA : ∀ c : String, c ≠ "H_uT" → c ≠ "Dip_Angle_deg" →
      c ≠ "Declination_deg" → getCol (derive_angles df) c = getCol df c := by
    intro c h1 h2 h3
    by_cases hc1 : c = "Time_s"
    · subst hc1
      rw [getCol_derive_Time, hcT, hnT, hvT]
    · by_cases hc2 : c = "Bx_uT"
      · subst hc2
        rw [getCol_derive_Bx, hcx, hnx, hvx]
      · by_cases hc3 : c = "By_uT"
        · subst hc3
          rw [getCol_derive_By, hcy, hny, hvy]
        · by_cases hc4 : c = "Bz_uT"
          · subst hc4
            rw [getCol_derive_Bz, hcz, hnz, hvz]
          · by_cases hc5 : c = "Absolute_field_uT"
            · subst hc5
              rw [getCol_derive_Abs, hca, hna, hva]
            · simp [derive_angles, getCol_setCol, Ne.symm hc1, Ne.symm hc2,
                Ne.symm hc3, Ne.symm hc4, Ne.symm hc5, Ne.symm h1, Ne.symm h2,
                Ne.symm h3]
  have hHcol : colOrNil (derive_angles df) "H_uT"
      = zipWithCell h_ut vx vy := by
    simp [colOrNil, getCol_derive_H, hvx, hvy, hnx, hny]
  have hDipcol : colOrNil (derive_angles df) "Dip_Angle_deg"
      = zipWithCell dip_deg vz (zipWithCell h_ut vx vy) := by
    simp [colOrNil, getCol_derive_Dip, hvx, hvy, hvz, hnx, hny, hnz]
  have hDeclcol : colOrNil (derive_angles df) "Declination_deg"
      = zipWithCell declination_deg vy vx := by
    simp [colOrNil, getCol_derive_Decl, hvx, hvy, hnx, hny]
  have hHlen : (colOrNil (derive_angles df) "H_uT").length = dfLen df := by
    rw [hHcol, zipWithCell_length, hlx, hly, Nat.min_self]
  have hDiplen : (colOrNil (derive_angles df) "Dip_Angle_deg").length
      = dfLen df := by
    rw [hDipcol, zipWithCell_length, hlz, zipWithCell_length, hlx, hly,
      Nat.min_self, Nat.min_self]
  have hDecllen : (colOrNil (derive_angles df) "Declination_deg").length
      = dfLen df := by
    rw [hDeclcol, zipWithCell_length, hlx, hly, Nat.min_self]
  have hwfd : ∀ p ∈ derive_angles df, p.2.length = dfLen df := by
    intro p hp
    rw [derive_angles_eq] at hp
    rcases mem_setCol hp with hp | rfl
    · rcases mem_setCol hp with hp | rfl
      · rcases mem_setCol hp with hp | rfl
        · rcases mem_setCol hp with hp | rfl
          · rcases mem_setCol hp with hp | rfl
            · rcases mem_setCol hp with hp | rfl
              · rcases mem_setCol hp with hp | rfl
                · rcases mem_setCol hp with hp | rfl
                  · simpa using List.all_eq_true.mp hwf _ hp
                  · simpa [toNumericCol_length, hcT] using hlT
                · simpa [toNumericCol_length, hcx] using hlx
              · simpa [toNumericCol_length, hcy] using hly
            · simpa [toNumericCol_length, hcz] using hlz
          · simpa [toNumericCol_length, hca] using hla
        · simp [zipWithCell_length, toNumericCol_length, hcx, hcy, hlx, hly]
      · simp [zipWithCell_length, toNumericCol_length, hcx, hcy, hcz,
          hlx, hly, hlz]
    · simp [zipWithCell_length, toNumericCol_length, hcx, hcy, hlx, hly]
  have hdne : derive_angles df ≠ [] := by
    rw [derive_angles_eq]
    exact setCol_ne_nil _ _ _
  have hdn : dfLen (derive_angles df) = dfLen df := dfLen_eq_of_all hdne hwfd
  refine ⟨frameA, ⟨?_, hHlen, ?_, hDiplen, ?_, hDecllen⟩, ?_⟩
  · rw [getCol_derive_H]
    rfl
  · rw [getCol_derive_Dip]
    rfl
  · rw [getCol_derive_Decl]
    rfl
  by_cases hn10 : 10 < dfLen df
  · have hok := smooth_of_gt (derive_angles df) (by omega)
      (by rw [hdn, hDiplen]
          exact (windowLength_odd_bounds (dfLen df) hn10).2.2.2)
      (by rw [hdn, hDecllen]
          exact (windowLength_odd_bounds (dfLen df) hn10).2.2.2)
      (by rw [hdn]
          rw [colOrNil_derive_Bz, hcz, hnz, hlz]
          exact (windowLength_odd_bounds (dfLen df) hn10).2.2.2)
    rw [hok]
    refine ⟨?_, ?_, ?_, ?_, ?_, ?_, ?_⟩
    · intro c h1 h2 h3
      simp only [Except.map]
      rw [show ∀ v1 v2 v3, getCol (setCol (setCol (setCol (derive_angles df)
          "Dip_Angle_smooth" v1) "Declination_smooth" v2) "Bz_smooth" v3) c
          = getCol (derive_angles df) c from by
        intro v1 v2 v3
        simp [getCol_setCol, Ne.symm h1, Ne.symm h2, Ne.symm h3]]
    · simp +decide [Except.map, getCol_setCol]
    · simp +decide [Except.map, colOrNil_setCol, savgolOut_length, hdn, hDiplen]
    · simp +decide [Except.map, getCol_setCol]
    · simp +decide [Except.map, colOrNil_setCol, savgolOut_length, hdn, hDecllen]
    · simp +decide [Except.map, getCol_setCol]
    · simp +decide [Except.map, colOrNil_setCol, savgolOut_length, hdn,
        colOrNil_derive_Bz, hcz, hnz, hlz]
  · have hok := smooth_of_le (derive_angles df) (by omega)
    rw [hok]
    refine ⟨?_, ?_, ?_, ?_, ?_, ?_, ?_⟩
    · intro c h1 h2 h3
      simp only [Except.map]
      rw [getCol_copyBranch_ne _ _ h1 h2 h3]
    · simp [Except.map, getCol_copyBranch_dip]
    · simp only [Except.map]
      rw [show colOrNil (copyBranch (derive_angles df)) "Dip_Angle_smooth"
          = colOrNil (derive_angles df) "Dip_Angle_deg" from by
        simp [colOrNil, getCol_copyBranch_dip]]
      rw [hDiplen]
    · simp [Except.map, getCol_copyBranch_decl]
    · simp only [Except.map]
      rw [show colOrNil (copyBranch (derive_angles df)) "Declination_smooth"
          = colOrNil (derive_angles df) "Declination_deg" from by
        simp [colOrNil, getCol_copyBranch_decl]]
      rw [hDecllen]
    · simp [Except.map, getCol_copyBranch_bz]
    · simp only [Except.map]
      rw [show colOrNil (copyBranch (derive_angles df)) "Bz_smooth"
          = colOrNil (derive_angles df) "Bz_uT" from by
        simp [colOrNil, getCol_copyBranch_bz]]
      rw [colOrNil_derive_Bz, hcz, hnz, hlz]

/-- Witness for `c7_frame_effects` on a concrete one-row raw table,
instantiating the frame quantifiers at the `Time_s` column. -/
theorem c7_frame_effects_witness :
    getCol (derive_angles exampleRaw) "Time_s" = getCol exampleRaw "Time_s" ∧
      (getCol (derive_angles exampleRaw) "H_uT").isSome = true ∧
      (colOrNil (derive_angles exampleRaw) "H_uT").length = dfLen exampleRaw ∧
      (smooth (derive_angles exampleRaw)).map (fun x => getCol x "Time_s")
        = Except.ok (getCol (derive_angles exampleRaw) "Time_s") ∧
      (smooth (derive_angles exampleRaw)).map
        (fun x => (colOrNil x "Dip_Angle_smooth").length)
        = Except.ok (dfLen exampleRaw) := by
  have h := c7_frame_effects exampleRaw (by decide) (by decide) (by decide)
    (by decide) (by decide) (by decide) (by decide)
  exact ⟨h.1 "Time_s" (by decide) (by decide) (by decide), h.2.1.1, h.2.1.2.1,
    h.2.2.1 "Time_s" (by decide) (by decide) (by decide), h.2.2.2.2.1⟩

end LenghuMagnetic
